import Mathlib

/-!
Verification of the response post-processing pipeline of the AI learning
platform backend (src/backend/server.py).

Text is modelled as `List Char`.  Python's substring test (`in`) and
`str.replace` are modelled by the structural functions `containsSub` and
`pyReplace` below; `str.lower` is modelled by mapping `Char.toLower`
(the texts involved are ASCII, where the two agree).  The phrase table is
a Python dict iterated with `.items()`, which yields insertion order, so it
is embedded as an ordered association list.
-/

/-- `headMatch p t` holds when `p` is an initial segment of `t`
(the test Python performs at each scan position of `str.replace`). -/
def headMatch : List Char → List Char → Bool
  | [], _ => true
  | _ :: _, [] => false
  | p :: ps, c :: cs => p == c && headMatch ps cs

/-- Python's substring test `needle in hay`. -/
def containsSub (needle : List Char) : List Char → Bool
  | [] => headMatch needle []
  | c :: cs => headMatch needle (c :: cs) || containsSub needle cs

/-- Scanner of Python's `str.replace`: at `skip = 0` it looks for the pattern
at the current position, copies it with `rep` substituted when found and then
skips the rest of the matched block; matching is left-to-right and
non-overlapping, exactly as in CPython (for the nonempty patterns of the
phrase table; the table contains no empty term). -/
def replaceGo (pat rep : List Char) : List Char → Nat → List Char
  | [], _ => []
  | _ :: cs, Nat.succ skip => replaceGo pat rep cs skip
  | c :: cs, 0 =>
    if headMatch pat (c :: cs) then
      rep ++ replaceGo pat rep cs (pat.length - 1)
    else
      c :: replaceGo pat rep cs 0

/-- Python's `text.replace(pat, rep)`. -/
def pyReplace (text pat rep : List Char) : List Char :=
  replaceGo pat rep text 0

/-- The `unsafe_keywords` list of `is_content_safe_for_kids`
(server.py lines 86-90), verbatim, in source order. -/
def unsafe_keywords : List (List Char) :=
  ["violence".data, "weapon".data, "kill".data, "death".data, "blood".data,
   "war".data, "fight".data,
   "inappropriate".data, "adult".data, "mature".data, "scary".data,
   "horror".data, "fear".data,
   "hate".data, "racism".data, "discrimination".data, "bullying".data,
   "mean".data]

/-- `is_content_safe_for_kids` (server.py lines 84-93): lower-case the
space-separated concatenation and scan for any unsafe keyword. -/
def is_content_safe_for_kids (message response : List Char) : Bool :=
  let combined_text := (message ++ [' '] ++ response).map Char.toLower
  !(unsafe_keywords.any fun keyword => containsSub keyword combined_text)

/-- The `replacements` table of `make_kid_friendly` (server.py lines 98-109),
verbatim, in source (insertion) order. -/
def replacements : List (List Char × List Char) :=
  [("artificial intelligence".data, "AI (like a smart computer)".data),
   ("algorithm".data, "computer instructions".data),
   ("machine learning".data, "how computers learn".data),
   ("neural network".data, "computer brain".data),
   ("processing".data, "thinking".data),
   ("generate".data, "create".data),
   ("sophisticated".data, "smart".data),
   ("complexity".data, "how hard something is".data),
   ("analyze".data, "look at carefully".data),
   ("implement".data, "make it work".data)]

/-- `make_kid_friendly` (server.py lines 95-115): fold the replacement table
over the text in its fixed order, each step rewriting the previous result. -/
def make_kid_friendly (response : List Char) : List Char :=
  replacements.foldl (fun result p => pyReplace result p.1 p.2) response

/-- The fixed fallback redirect string substituted for unsafe content
(server.py line 189), verbatim, the four trailing non-ASCII characters
written as unicode escapes. -/
def fallback_response : List Char :=
  "Let\u0027s talk about something more fun! How about we explore how AI helps create cool games or helps robots move around? ü§ñ".data

/-- The sanitization steps of `send_chat_message` (server.py lines 182-199):
simplify the raw reply, classify user message + simplified reply, and
substitute the fallback when unsafe.  Returns (final text, is_safe). -/
def sanitize (message ai_response : List Char) : List Char × Bool :=
  let kid_friendly_response := make_kid_friendly ai_response
  let is_safe := is_content_safe_for_kids message kid_friendly_response
  (if is_safe then kid_friendly_response else fallback_response, is_safe)

/-- A persisted chat record, the fields of `ChatMessage` that the handler
computes (`id` and `timestamp` are fresh uuid/clock values, outside the
embedding). -/
structure ChatRecord where
  session_id : List Char
  message : List Char
  response : List Char
  model_provider : List Char
  model_name : List Char
  is_safe : Bool
  deriving DecidableEq

/-- Outcome of the POST /chat/message handler: an HTTP error status or the
persisted record (error detail strings elided). -/
inductive HandlerResult where
  | httpError (status : Nat)
  | ok (record : ChatRecord)
  deriving DecidableEq

/-- The `send_chat_message` handler (server.py lines 147-215).  The
environment lookup of `EMERGENT_LLM_KEY` is the `api_key` argument
(`none` when the variable is absent; Python treats the empty string as
missing too, via `if not api_key`).  The single outcome of the one LLM
call is the `llm_reply` argument; every exception path of the handler,
including the re-raised missing-key case, surfaces as HTTP 500. -/
def send_chat_message (api_key : Option (List Char))
    (session_id message model_provider model_name : List Char)
    (llm_reply : Except (List Char) (List Char)) : HandlerResult :=
  let missing := match api_key with
    | none => true
    | some k => k.isEmpty
  if missing then HandlerResult.httpError 500
  else
    match llm_reply with
    | Except.error _ => HandlerResult.httpError 500
    | Except.ok ai_response =>
      let kid_friendly_response := make_kid_friendly ai_response
      let is_safe := is_content_safe_for_kids message kid_friendly_response
      let final_response :=
        if is_safe then kid_friendly_response else fallback_response
      HandlerResult.ok
        { session_id := session_id
          message := message
          response := final_response
          model_provider := model_provider
          model_name := model_name
          is_safe := is_safe }

/-- The sanitizer exactly as worded in spec §4.3: simplify first, classify
the simplified text, substitute the fallback when unsafe.  (Spec-side
definition, to be compared with `sanitize` from the source.) -/
def sanitize_spec (userMessage rawResponse : List Char) : List Char × Bool :=
  let simplified := make_kid_friendly rawResponse
  let safe := is_content_safe_for_kids userMessage simplified
  let finalText := if safe then simplified else fallback_response
  (finalText, safe)

/-- `needle` occurs as a contiguous substring of `hay`. -/
def Occurs (needle hay : List Char) : Prop :=
  ∃ pre post, pre ++ needle ++ post = hay

theorem headMatch_iff (p t : List Char) :
    headMatch p t = true ↔ ∃ rest, p ++ rest = t := by
  induction p generalizing t with
  | nil => simp [headMatch]
  | cons a ps ih =>
    cases t with
    | nil => simp [headMatch]
    | cons c cs =>
      simp only [headMatch, Bool.and_eq_true, beq_iff_eq, ih, List.cons_append,
        List.cons.injEq]
      constructor
      · rintro ⟨rfl, rest, rfl⟩
        exact ⟨rest, rfl, rfl⟩
      · rintro ⟨rest, rfl, rfl⟩
        exact ⟨rfl, rest, rfl⟩

theorem containsSub_iff (n h : List Char) :
    containsSub n h = true ↔ Occurs n h := by
  induction h with
  | nil =>
    simp only [containsSub, headMatch_iff, Occurs]
    constructor
    · rintro ⟨rest, hr⟩
      exact ⟨[], rest, hr⟩
    · rintro ⟨pre, post, hp⟩
      rcases List.append_eq_nil.mp hp with ⟨hpn, hpost⟩
      rcases List.append_eq_nil.mp hpn with ⟨hpre, hn⟩
      exact ⟨post, by rw [hn, hpost]; rfl⟩
  | cons c cs ih =>
    simp only [containsSub, Bool.or_eq_true, headMatch_iff, ih, Occurs]
    constructor
    · rintro (⟨rest, hr⟩ | ⟨pre, post, hp⟩)
      · exact ⟨[], rest, by simpa using hr⟩
      · exact ⟨c :: pre, post, by simp [hp]⟩
    · rintro ⟨pre, post, hp⟩
      cases pre with
      | nil => exact Or.inl ⟨post, by simpa using hp⟩
      | cons a pre =>
        rcases List.cons.injEq .. ▸ hp with ⟨_, htail⟩
        exact Or.inr ⟨pre, post, htail⟩

theorem occurs_cons (n l : List Char) (c : Char) (h : Occurs n l) :
    Occurs n (c :: l) := by
  rcases h with ⟨pre, post, hp⟩
  exact ⟨c :: pre, post, by simp [hp]⟩

theorem occurs_append_right (n u v : List Char) (h : Occurs n v) :
    Occurs n (u ++ v) := by
  rcases h with ⟨pre, post, hp⟩
  exact ⟨u ++ pre, post, by simp [hp]⟩

theorem occurs_append_left (n u v : List Char) (h : Occurs n u) :
    Occurs n (u ++ v) := by
  rcases h with ⟨pre, post, hp⟩
  exact ⟨pre, post ++ v, by rw [← hp]; simp⟩

theorem replaceGo_id (pat rep text : List Char) (h : ¬ Occurs pat text) :
    replaceGo pat rep text 0 = text := by
  induction text with
  | nil => rfl
  | cons c cs ih =>
    have hnm : ¬ (headMatch pat (c :: cs) = true) := by
      intro ht
      rcases (headMatch_iff pat (c :: cs)).mp ht with ⟨rest, hr⟩
      exact h ⟨[], rest, by simpa using hr⟩
    simp only [replaceGo, if_neg hnm]
    rw [ih fun hocc => h (occurs_cons _ _ _ hocc)]

theorem pyReplace_id (text pat rep : List Char) (h : ¬ Occurs pat text) :
    pyReplace text pat rep = text :=
  replaceGo_id pat rep text h

theorem foldl_pyReplace_id (t : List Char) (l : List (List Char × List Char))
    (h : ∀ p ∈ l, ¬ Occurs p.1 t) :
    l.foldl (fun result p => pyReplace result p.1 p.2) t = t := by
  induction l with
  | nil => rfl
  | cons a l ih =>
    simp only [List.foldl]
    rw [pyReplace_id t a.1 a.2 (h a (List.mem_cons_self a l))]
    exact ih fun p hp => h p (List.mem_cons_of_mem a hp)

theorem make_kid_friendly_id_of_clean (t : List Char)
    (h : ∀ p ∈ replacements, ¬ Occurs p.1 t) :
    make_kid_friendly t = t :=
  foldl_pyReplace_id t replacements h

theorem combined_lower (u r : List Char) :
    (u ++ [' '] ++ r).map Char.toLower =
      u.map Char.toLower ++ [' '] ++ r.map Char.toLower := by
  have hsp : Char.toLower ' ' = ' ' := by decide
  simp [List.map_append, hsp]

theorem classify_eq_false_iff (u r : List Char) :
    is_content_safe_for_kids u r = false ↔
      ∃ kw ∈ unsafe_keywords,
        Occurs kw ((u ++ [' '] ++ r).map Char.toLower) := by
  simp only [is_content_safe_for_kids, Bool.not_eq_false', List.any_eq_true,
    containsSub_iff]

theorem classify_eq_true_iff (u r : List Char) :
    is_content_safe_for_kids u r = true ↔
      ∀ kw ∈ unsafe_keywords,
        ¬ Occurs kw ((u ++ [' '] ++ r).map Char.toLower) := by
  simp only [is_content_safe_for_kids, Bool.not_eq_true', List.any_eq_false,
    containsSub_iff]

theorem fallback_clean :
    unsafe_keywords.all
      (fun kw => !(containsSub kw (fallback_response.map Char.toLower))) = true := by
  decide

/-- Claim C1: `classify(u, r)` returns false iff some keyword of the fixed
18-entry `unsafe_keywords` list occurs as a substring of the lowercased
concatenation of `u`, a single space, and `r`; otherwise it returns true. -/
theorem C1_classify_false_iff_keyword (u r : List Char) :
    is_content_safe_for_kids u r = false ↔
      ∃ kw ∈ unsafe_keywords,
        Occurs kw ((u ++ [' '] ++ r).map Char.toLower) :=
  classify_eq_false_iff u r

/-- Claim C2: the safety flag returned by the sanitizer equals the classifier
verdict on the simplified text, and the final text is the simplified text when
that verdict is true and the fixed fallback redirect string when it is false,
regardless of input content. -/
theorem C2_sanitize_fallback_discipline (u r : List Char) :
    (sanitize u r).1 =
      (if is_content_safe_for_kids u (make_kid_friendly r) then
        make_kid_friendly r else fallback_response) ∧
    (sanitize u r).2 = is_content_safe_for_kids u (make_kid_friendly r) :=
  ⟨rfl, rfl⟩

/-- Claim C3: the sanitizer applies its two stages in fixed order — the raw
response is simplified first and the safety decision is the classifier applied
to the simplified text, exactly as the spec-worded `sanitize_spec` prescribes;
moreover the decision genuinely inspects the simplified text rather than the
raw one: on a concrete input the two verdicts differ. -/
theorem C3_stages_in_order :
    (∀ u r, sanitize u r = sanitize_spec u r) ∧
    (sanitize [] "scomplexitycary".data).2 ≠
      is_content_safe_for_kids [] "scomplexitycary".data :=
  ⟨fun _ _ => rfl, by decide⟩

/-- Claim C4: `make_kid_friendly` is the fold of the ten replacement steps of
the phrase table in its fixed listed order, each step replacing every
non-overlapping left-to-right occurrence of the complex term case-sensitively
by plain substring matching, the output of each step feeding the next; it is
total.  The second conjunct shows matching is not word-boundary aware: a term
inside a larger word is also replaced. -/
theorem C4_fold_in_table_order :
    (∀ t, make_kid_friendly t =
      pyReplace (pyReplace (pyReplace (pyReplace (pyReplace (pyReplace
        (pyReplace (pyReplace (pyReplace (pyReplace t
          "artificial intelligence".data "AI (like a smart computer)".data)
          "algorithm".data "computer instructions".data)
          "machine learning".data "how computers learn".data)
          "neural network".data "computer brain".data)
          "processing".data "thinking".data)
          "generate".data "create".data)
          "sophisticated".data "smart".data)
          "complexity".data "how hard something is".data)
          "analyze".data "look at carefully".data)
          "implement".data "make it work".data) ∧
    make_kid_friendly "xgeneratex".data = "xcreatex".data :=
  ⟨fun _ => rfl, by decide⟩

/-- Claim C5: applying `make_kid_friendly` twice yields the same result as
applying it once, except where a replacement output happens to contain a term
of the table: whenever no complex term of the table occurs in the
once-simplified text, the second application changes nothing. -/
theorem C5_simplify_twice_eq_once (t : List Char)
    (h : replacements.all
      (fun p => !(containsSub p.1 (make_kid_friendly t))) = true) :
    make_kid_friendly (make_kid_friendly t) = make_kid_friendly t := by
  apply make_kid_friendly_id_of_clean
  intro p hp hocc
  have hall := List.all_eq_true.mp h p hp
  rw [(containsSub_iff p.1 (make_kid_friendly t)).mpr hocc] at hall
  simp at hall

/-- Witness for C5 at a concrete text whose simplification is free of table
terms. -/
theorem C5_witness :
    (replacements.all
      (fun p => !(containsSub p.1 (make_kid_friendly "the cat sat".data))) = true) ∧
    make_kid_friendly (make_kid_friendly "the cat sat".data) =
      make_kid_friendly "the cat sat".data :=
  ⟨by decide, C5_simplify_twice_eq_once "the cat sat".data (by decide)⟩

/-- The exception in the idempotence property is real: a replacement output
can recreate an earlier table term across a seam ("complexity" →
"how hard something is" glues with "ophisticated" into "sophisticated"), so a
second simplification pass can differ from the first. -/
theorem simplify_twice_can_differ :
    make_kid_friendly (make_kid_friendly "complexityophisticated".data) ≠
      make_kid_friendly "complexityophisticated".data := by
  decide

/-- Claim C6: on userMessage "What is AI?" and rawResponse "AI is a kind of
processing that helps computers", the sanitizer delivers a final text
containing "thinking" (from the "processing" → "thinking" replacement) and
reports it safe. -/
theorem C6_scenario5 :
    containsSub "thinking".data
      (sanitize "What is AI?".data
        "AI is a kind of processing that helps computers".data).1 = true ∧
    (sanitize "What is AI?".data
      "AI is a kind of processing that helps computers".data).2 = true := by
  decide

/-- Claim C7: the sanitizer pipeline is deterministic — two invocations with
identical inputs (over the same fixed tables, which are constants of this
functional embedding and are never mutated) produce identical simplifier,
classifier and sanitizer outputs. -/
theorem C7_deterministic (u₁ r₁ u₂ r₂ : List Char)
    (hu : u₁ = u₂) (hr : r₁ = r₂) :
    make_kid_friendly r₁ = make_kid_friendly r₂ ∧
    is_content_safe_for_kids u₁ r₁ = is_content_safe_for_kids u₂ r₂ ∧
    sanitize u₁ r₁ = sanitize u₂ r₂ := by
  subst hu
  subst hr
  exact ⟨rfl, rfl, rfl⟩

/-- Witness for C7 at a concrete pair of invocations. -/
theorem C7_witness :
    ("hi".data = "hi".data) ∧ ("ok".data = "ok".data) ∧
    sanitize "hi".data "ok".data = sanitize "hi".data "ok".data :=
  ⟨rfl, rfl,
    (C7_deterministic "hi".data "ok".data "hi".data "ok".data rfl rfl).2.2⟩

/-- Claim C8: the POST /chat/message handler returns HTTP 500 when the
provider API key is unconfigured (absent, or empty, which Python treats as
missing) and when the single LLM provider call fails — the handler consumes
exactly one provider outcome, so there is no retry — and otherwise returns
the persisted chat-message record carrying the sanitized response and safety
flag. -/
theorem C8_endpoint_behaviour (api_key : Option (List Char))
    (sid msg mp mn : List Char) (llm : Except (List Char) (List Char)) :
    send_chat_message api_key sid msg mp mn llm =
      (if (match api_key with | none => true | some k => k.isEmpty) then
        HandlerResult.httpError 500
      else
        match llm with
        | Except.error _ => HandlerResult.httpError 500
        | Except.ok ai =>
          HandlerResult.ok
            { session_id := sid
              message := msg
              response := (sanitize msg ai).1
              model_provider := mp
              model_name := mn
              is_safe := (sanitize msg ai).2 }) := by
  cases api_key with
  | none => cases llm <;> rfl
  | some k => cases k <;> cases llm <;> rfl

/-- Claim C9: the lowercased final text delivered by the sanitizer never
contains an unsafe keyword: in the safe branch the classifier found none in
the combined text, and in the unsafe branch the fixed fallback string is
itself free of unsafe keywords. -/
theorem C9_final_text_clean (u r kw : List Char) (hkw : kw ∈ unsafe_keywords) :
    ¬ Occurs kw ((sanitize u r).1.map Char.toLower) := by
  intro hocc
  cases hs : is_content_safe_for_kids u (make_kid_friendly r) with
  | true =>
    have h1 : (sanitize u r).1 = make_kid_friendly r := by
      simp [sanitize, hs]
    rw [h1] at hocc
    have h2 := (classify_eq_true_iff u (make_kid_friendly r)).mp hs kw hkw
    have h3 : Occurs kw
        ((u ++ [' '] ++ make_kid_friendly r).map Char.toLower) := by
      rw [combined_lower]
      exact occurs_append_right _ _ _ hocc
    exact h2 h3
  | false =>
    have h1 : (sanitize u r).1 = fallback_response := by
      simp [sanitize, hs]
    rw [h1] at hocc
    have h2 := List.all_eq_true.mp fallback_clean kw hkw
    rw [(containsSub_iff kw (fallback_response.map Char.toLower)).mpr hocc] at h2
    simp at h2

/-- Witness for C9 at a concrete keyword and input pair. -/
theorem C9_witness :
    ("war".data ∈ unsafe_keywords) ∧
    ¬ Occurs "war".data
      ((sanitize "hello there".data "nice day".data).1.map Char.toLower) :=
  ⟨by decide,
    C9_final_text_clean "hello there".data "nice day".data "war".data
      (by decide)⟩

/-- Claim C10: whenever the lowercased user message itself contains an unsafe
keyword, the sanitizer returns the fixed fallback string with is_safe = false,
whatever the raw model reply is — the reply never influences the delivered
text in that case. -/
theorem C10_unsafe_user_forces_fallback (u r : List Char)
    (h : unsafe_keywords.any
      (fun kw => containsSub kw (u.map Char.toLower)) = true) :
    sanitize u r = (fallback_response, false) := by
  rcases List.any_eq_true.mp h with ⟨kw, hkw, hsub⟩
  have hocc : Occurs kw (u.map Char.toLower) := (containsSub_iff _ _).mp hsub
  have hfalse : is_content_safe_for_kids u (make_kid_friendly r) = false := by
    rw [classify_eq_false_iff]
    refine ⟨kw, hkw, ?_⟩
    rw [combined_lower]
    exact occurs_append_left _ _ _ (occurs_append_left _ _ _ hocc)
  simp [sanitize, hfalse]

/-- Witness for C10 at a concrete unsafe user message. -/
theorem C10_witness :
    (unsafe_keywords.any (fun kw =>
      containsSub kw ("Tell me about war".data.map Char.toLower)) = true) ∧
    sanitize "Tell me about war".data "Wars are bad".data =
      (fallback_response, false) :=
  ⟨by decide,
    C10_unsafe_user_forces_fallback "Tell me about war".data
      "Wars are bad".data (by decide)⟩
